import Mathlib

/-!
Verification development for the Kaffi engine core (shallow embedding).

The definitions below are translated from the C sources of the repository:
  * `src/engine/src/core/kmemory.c` / `kmemory.h` (tagged memory ledger and
    the usage report string),
  * `src/engine/src/core/application.c` (application lifecycle: create and
    the main run loop),
  * `src/engine/src/platform/platform_linux.c` and `platform_win32.c`
    (the message pumps of the two platform backends).

Machine integers (C `u64`) are modelled as `Nat` with explicit reduction
modulo `2 ^ 64`.  C strings and character buffers are modelled as Lean
`String` / `List Char`.  The game callbacks and the OS event queue are
external inputs of the program; they are modelled as explicit input values
(booleans returned by the callbacks, lists of queued OS events).
-/

/-- Modulus of C `u64` arithmetic. -/
def U64_MOD : Nat := 2 ^ 64

/-- C `u64` addition (`a += b` wraps modulo `2 ^ 64`). -/
def add64 (a b : Nat) : Nat := (a + b) % U64_MOD

/-- C `u64` subtraction (`a -= b` wraps modulo `2 ^ 64`). -/
def sub64 (a b : Nat) : Nat := (a + (U64_MOD - b % U64_MOD)) % U64_MOD

/-- The `memory_tag` enum of `kmemory.h` (the two spelling slips
`UNKOWN` and `ENTTY_NODE` are as in the source).  `MEMORY_TAG_MAX_TAGS` is
the element count, kept separately below. -/
inductive memory_tag where
  | MEMORY_TAG_UNKOWN
  | MEMORY_TAG_ARRAY
  | MEMORY_TAG_DARRAY
  | MEMORY_TAG_DICT
  | MEMORY_TAG_RING_QUEUE
  | MEMORY_TAG_BST
  | MEMORY_TAG_STRING
  | MEMORY_TAG_APPLICATION
  | MEMORY_TAG_JOB
  | MEMORY_TAG_TEXTURE
  | MEMORY_TAG_MATERIAL_INSTANCE
  | MEMORY_TAG_RENDERER
  | MEMORY_TAG_GAME
  | MEMORY_TAG_TRANSFORM
  | MEMORY_TAG_ENTITY
  | MEMORY_TAG_ENTTY_NODE
  | MEMORY_TAG_SCENE
deriving DecidableEq, Fintype

/-- Value of the `MEMORY_TAG_MAX_TAGS` enumerator. -/
def MEMORY_TAG_MAX_TAGS : Nat := 17

/-- The `struct memory_stats` ledger of `kmemory.c`: a `u64` total and a
`u64` counter per tag. -/
structure memory_stats where
  total_allocated : Nat
  tagged_allocations : memory_tag → Nat

/-- State produced by `initialize_memory()`: the whole ledger zeroed. -/
def initialize_memory : memory_stats := ⟨0, fun _ => 0⟩

/-- Ledger effect of `kallocate(size, tag)` in `kmemory.c`: both the total
and the tag's counter are incremented by `size` (u64 wrap-around). -/
def kallocate (size : Nat) (tag : memory_tag) (s : memory_stats) : memory_stats :=
  ⟨add64 s.total_allocated size,
   fun t => if t = tag then add64 (s.tagged_allocations t) size else s.tagged_allocations t⟩

/-- Ledger effect of `kfree(block, size, tag)` in `kmemory.c`: both the
total and the tag's counter are decremented by `size` (u64 wrap-around). -/
def kfree (size : Nat) (tag : memory_tag) (s : memory_stats) : memory_stats :=
  ⟨sub64 s.total_allocated size,
   fun t => if t = tag then sub64 (s.tagged_allocations t) size else s.tagged_allocations t⟩

/-- One call into the ledger: either a `kallocate` or a `kfree`, with the
`size` and `tag` arguments the caller passed. -/
inductive mem_op where
  | alloc (size : Nat) (tag : memory_tag)
  | free (size : Nat) (tag : memory_tag)
deriving DecidableEq

/-- Applies one ledger call to the stats. -/
def apply_mem_op (s : memory_stats) (op : mem_op) : memory_stats :=
  match op with
  | .alloc size tag => kallocate size tag s
  | .free size tag => kfree size tag s

/-- Applies a finite sequence of `kallocate` / `kfree` calls in order. -/
def apply_mem_ops (ops : List mem_op) (s : memory_stats) : memory_stats :=
  ops.foldl apply_mem_op s

/-- The `(size, tag)` pairs of the allocation calls in a sequence. -/
def alloc_pairs : List mem_op → List (Nat × memory_tag)
  | [] => []
  | .alloc size tag :: rest => (size, tag) :: alloc_pairs rest
  | .free _ _ :: rest => alloc_pairs rest

/-- The `(size, tag)` pairs of the free calls in a sequence. -/
def free_pairs : List mem_op → List (Nat × memory_tag)
  | [] => []
  | .alloc _ _ :: rest => free_pairs rest
  | .free size tag :: rest => (size, tag) :: free_pairs rest

/-- The pairs of a sequence that carry a given tag. -/
def pairs_for_tag (tag : memory_tag) (l : List (Nat × memory_tag)) :
    List (Nat × memory_tag) :=
  l.filter (fun p => p.2 == tag)

/-- Net contribution of one ledger call to `total_allocated`, viewed in
`ZMod U64_MOD` (the u64 residue ring). -/
def op_delta (op : mem_op) : ZMod U64_MOD :=
  match op with
  | .alloc size _ => (size : ZMod U64_MOD)
  | .free size _ => -(size : ZMod U64_MOD)

/-- Net contribution of one ledger call to `tagged_allocations[tag]`,
viewed in `ZMod U64_MOD`. -/
def op_delta_tag (tag : memory_tag) (op : mem_op) : ZMod U64_MOD :=
  match op with
  | .alloc size t => if t = tag then (size : ZMod U64_MOD) else 0
  | .free size t => if t = tag then -(size : ZMod U64_MOD) else 0

/-- Sum of the sizes of a pair list, in the u64 residue ring. -/
def pair_size_sum (l : List (Nat × memory_tag)) : ZMod U64_MOD :=
  (l.map (fun p => (p.1 : ZMod U64_MOD))).sum

/-! ### Application lifecycle (`application.c`)

The run loop of `application_run` calls three external functions each
iteration: `platform_pump_messages` and the game's `update` and `render`
callbacks.  Their boolean results are the loop's only inputs, so one loop
iteration is driven by a `frame_input` record and a whole execution by a
finite list of them.  If the list is exhausted while the loop would still
continue, the model returns `none` (the C loop would still be running). -/

/-- External boolean results available to one iteration of the run loop:
what `platform_pump_messages` returns, and what the game's `update` and
`render` callbacks would return if called. -/
structure frame_input where
  pump : Bool
  update : Bool
  render : Bool
deriving DecidableEq

/-- The two flags of `application_state` that the run loop reads and
writes (`is_running`, `is_suspended`). -/
structure app_run_state where
  is_running : Bool
  is_suspended : Bool
deriving DecidableEq

/-- Record of one executed loop iteration: the value returned by
`platform_pump_messages`, and the results of the `update` and `render`
callback calls (`none` when the callback was not invoked). -/
structure iter_trace where
  pump_ok : Bool
  update_result : Option Bool
  render_result : Option Bool
deriving DecidableEq

/-- State after the `platform_pump_messages` statement of one loop
iteration: `is_running` is cleared when the pump returned `FALSE`
(`application.c` lines 143-145). -/
def pump_next (inp : frame_input) (s : app_run_state) : app_run_state :=
  if inp.pump then s else ⟨false, s.is_suspended⟩

/-- The `while (app_state.is_running)` loop of `application_run`
(`application.c` lines 140-166), translated statement by statement:
check the flag; pump messages and clear `is_running` if the pump returned
`FALSE`; then, unless suspended, call `update` (clearing `is_running` and
breaking on failure) and then `render` (likewise).  Returns the list of
executed iterations and the state after the loop, or `none` if the input
list ran out with the loop still running. -/
def application_loop : List frame_input → app_run_state → Option (List iter_trace × app_run_state)
  | [], s => if s.is_running then none else some ([], s)
  | inp :: rest, s =>
    if s.is_running then
      if (pump_next inp s).is_suspended then
        (application_loop rest (pump_next inp s)).map
          (fun r => (⟨inp.pump, none, none⟩ :: r.1, r.2))
      else if inp.update then
        if inp.render then
          (application_loop rest (pump_next inp s)).map
            (fun r => (⟨inp.pump, some true, some true⟩ :: r.1, r.2))
        else some ([⟨inp.pump, some true, some false⟩], ⟨false, (pump_next inp s).is_suspended⟩)
      else some ([⟨inp.pump, some false, none⟩], ⟨false, (pump_next inp s).is_suspended⟩)
    else some ([], s)

/-- Result of a terminating `application_run` call: the iteration trace,
the final state, how many times `platform_shutdown` was called, and the
function's return value. -/
structure run_output where
  trace : List iter_trace
  final : app_run_state
  shutdown_calls : Nat
  ret : Bool
deriving DecidableEq

/-- Model of `application_run` (`application.c` lines 138-175): runs the loop, then
unconditionally forces `is_running = FALSE`, calls `platform_shutdown`
once, and returns `TRUE`. -/
def application_run (inputs : List frame_input) (s : app_run_state) : Option run_output :=
  match application_loop inputs s with
  | none => none
  | some (tr, s') => some ⟨tr, ⟨false, s'.is_suspended⟩, 1, true⟩

/-- Number of iterations in which the game's `update` callback was
invoked. -/
def count_update_calls (tr : List iter_trace) : Nat :=
  (tr.filter (fun t => t.update_result.isSome)).length

/-- Number of iterations in which the game's `render` callback was
invoked. -/
def count_render_calls (tr : List iter_trace) : Nat :=
  (tr.filter (fun t => t.render_result.isSome)).length

/-- Claim C4 as stated: whenever `platform_pump_messages` signals stop,
that same iteration invokes neither `update` nor `render`. -/
def pump_stop_exits_immediately : Prop :=
  ∀ (inputs : List frame_input) (s : app_run_state) (out : run_output),
    application_run inputs s = some out →
    ∀ t ∈ out.trace, t.pump_ok = false → t.update_result = none ∧ t.render_result = none

/-! ### `application_create` (`application.c` lines 82-131) -/

/-- The full `application_state` singleton of `application.c` as far as
`application_create` touches it.  Pointers are modelled as `Nat` ids; the
`f64 last_time` field is omitted (floating point, and never written by
`application_create`). -/
structure application_state where
  game_inst : Nat
  is_running : Bool
  is_suspended : Bool
  platform : Nat
  width : Int
  height : Int
deriving DecidableEq

/-- External outcomes consumed by one `application_create` call: whether
`platform_startup` succeeds and the platform state it writes, and whether
the game's `initilize` callback succeeds. -/
structure create_env where
  platform_startup_ok : Bool
  platform_after_startup : Nat
  game_initialize_ok : Bool
deriving DecidableEq

/-- Model of `application_create(game_inst)`: if the `initialized` guard is already
set, log and return `FALSE` touching nothing.  Otherwise store the game
pointer, set the two flags, run `platform_startup` (which writes the
platform member), bail out on its failure or on game-initialization
failure, and only on full success set `initialized = TRUE`.  The result is
`(return value, initialized flag, application_state)`. -/
def application_create (game_inst : Nat) (env : create_env)
    (initialized : Bool) (app : application_state) :
    Bool × Bool × application_state :=
  if initialized then (false, initialized, app)
  else
    let app2 : application_state :=
      ⟨game_inst, true, false, app.platform, app.width, app.height⟩
    let app3 : application_state :=
      ⟨app2.game_inst, app2.is_running, app2.is_suspended,
       env.platform_after_startup, app2.width, app2.height⟩
    if !env.platform_startup_ok then (false, false, app3)
    else if !env.game_initialize_ok then (false, false, app3)
    else (true, true, app3)

/-! ### Platform message pumps (`platform_win32.c`, `platform_linux.c`) -/

/-- Win32 message id `WM_DESTROY` (0x0002). -/
def WM_DESTROY : Nat := 2

/-- Win32 message id `WM_CLOSE` (0x0010). -/
def WM_CLOSE : Nat := 16

/-- Win32 message id `WM_ERASEBKGND` (0x0014). -/
def WM_ERASEBKGND : Nat := 20

/-- The `win32_process_message` window procedure, restricted to what it
does with a message id: the returned `LRESULT` and whether
`PostQuitMessage` was called.  `WM_ERASEBKGND` returns 1; `WM_CLOSE`
returns 0; `WM_DESTROY` posts a quit message and returns 0; every other
message falls through to `DefWindowProcA` (result modelled as 0, no
quit). -/
def win32_process_message (msg : Nat) : Int × Bool :=
  if msg = WM_ERASEBKGND then (1, false)
  else if msg = WM_CLOSE then (0, false)
  else if msg = WM_DESTROY then (0, true)
  else (0, false)

/-- Model of `platform_pump_messages` of `platform_win32.c` (lines 182-190): drains
the queue, dispatching every message to `win32_process_message`, and then
executes `return TRUE;`.  The first component records whether some
dispatched message posted a quit message (a side effect the function never
consults); the second component is the function's return value. -/
def platform_pump_messages_win32 (msgs : List Nat) : Bool × Bool :=
  (msgs.foldl (fun quit m => quit || (win32_process_message m).2) false, true)

/-- X11 event code `XCB_CLIENT_MESSAGE` (33). -/
def XCB_CLIENT_MESSAGE : Nat := 33

/-- The two fields of an XCB event that
`platform_pump_messages` of `platform_linux.c` inspects: the `u8`
`response_type`, and the first `u32` data word of a client message. -/
structure xcb_generic_event where
  response_type : Nat
  data32_0 : Nat
deriving DecidableEq

/-- Model of `platform_pump_messages` of `platform_linux.c` (lines 284-337): polls
every queued event, switching on `response_type & ~0x80` (on a `u8` this
clears bit 7, i.e. `&&& 127`); a `XCB_CLIENT_MESSAGE` whose first data
word equals the cached `wm_delete_win` atom sets `quit_flagged`; finally
`return !quit_flagged;`. -/
def platform_pump_messages_linux (wm_delete_win : Nat)
    (events : List xcb_generic_event) : Bool :=
  !(events.foldl
    (fun quit_flagged e =>
      if e.response_type &&& 127 = XCB_CLIENT_MESSAGE then
        if e.data32_0 = wm_delete_win then true else quit_flagged
      else quit_flagged)
    false)

/-- Claim C2 as stated: on every backend the pump returns
`keep_running = false` exactly when a window-close request was received
(Win32: a `WM_DESTROY`-class message; X11: a client message whose first
data word equals the cached delete-window atom). -/
def pump_close_claim : Prop :=
  (∀ msgs : List Nat,
    ((platform_pump_messages_win32 msgs).2 = false ↔ WM_DESTROY ∈ msgs))
  ∧ (∀ (wm : Nat) (events : List xcb_generic_event),
      (platform_pump_messages_linux wm events = false ↔
        ∃ e ∈ events, e.response_type &&& 127 = XCB_CLIENT_MESSAGE ∧ e.data32_0 = wm))

/-! ### `get_memory_usage_str` (`kmemory.c` lines 117-160) -/

/-- The `kib` constant of `get_memory_usage_str`. -/
def kib : Nat := 1024

/-- The `mib` constant of `get_memory_usage_str`. -/
def mib : Nat := 1024 * 1024

/-- The `gib` constant of `get_memory_usage_str`. -/
def gib : Nat := 1024 * 1024 * 1024

/-- The `msg_length` buffer bound of `get_memory_usage_str`. -/
def msg_length : Nat := 8000

/-- The `memory_tag_strings` table of `kmemory.c`: one display name per
tag, each exactly 11 characters (short names carry trailing blanks). -/
def memory_tag_strings : memory_tag → String
  | .MEMORY_TAG_UNKOWN => "UNKNOWN    "
  | .MEMORY_TAG_ARRAY => "ARRAY      "
  | .MEMORY_TAG_DARRAY => "DARRAY     "
  | .MEMORY_TAG_DICT => "DICT       "
  | .MEMORY_TAG_RING_QUEUE => "RING_QUEUE "
  | .MEMORY_TAG_BST => "BST        "
  | .MEMORY_TAG_STRING => "STRING     "
  | .MEMORY_TAG_APPLICATION => "APPLICATION"
  | .MEMORY_TAG_JOB => "JOB        "
  | .MEMORY_TAG_TEXTURE => "TEXTURE    "
  | .MEMORY_TAG_MATERIAL_INSTANCE => "MAT_INST   "
  | .MEMORY_TAG_RENDERER => "RENDERER   "
  | .MEMORY_TAG_GAME => "GAME       "
  | .MEMORY_TAG_TRANSFORM => "TRANSFORM  "
  | .MEMORY_TAG_ENTITY => "ENTITY     "
  | .MEMORY_TAG_ENTTY_NODE => "ENTITY_NODE"
  | .MEMORY_TAG_SCENE => "SCENE      "

/-- The enum order in which the `for (u32 i = 0; i < MEMORY_TAG_MAX_TAGS;
++i)` loop of `get_memory_usage_str` visits the tags. -/
def memory_tag_order : List memory_tag :=
  [.MEMORY_TAG_UNKOWN, .MEMORY_TAG_ARRAY, .MEMORY_TAG_DARRAY, .MEMORY_TAG_DICT,
   .MEMORY_TAG_RING_QUEUE, .MEMORY_TAG_BST, .MEMORY_TAG_STRING,
   .MEMORY_TAG_APPLICATION, .MEMORY_TAG_JOB, .MEMORY_TAG_TEXTURE,
   .MEMORY_TAG_MATERIAL_INSTANCE, .MEMORY_TAG_RENDERER, .MEMORY_TAG_GAME,
   .MEMORY_TAG_TRANSFORM, .MEMORY_TAG_ENTITY, .MEMORY_TAG_ENTTY_NODE,
   .MEMORY_TAG_SCENE]

/-- Decimal digit characters of `n`, most significant first — the digit
string printf produces for a non-negative integer.  `fuel` bounds the
recursion; callers pass `fuel ≥ n`, which suffices. -/
def dec_digits_core (fuel n : Nat) : List Char :=
  match fuel with
  | 0 => []
  | fuel' + 1 =>
    if n < 10 then [Nat.digitChar n]
    else dec_digits_core fuel' (n / 10) ++ [Nat.digitChar (n % 10)]

/-- Decimal numeral of `n` as a string. -/
def dec_str (n : Nat) : String := ⟨dec_digits_core (n + 1) n⟩

/-- Renders a quantity of hundredths as a two-decimal numeral, the shape
`%.2f` produces (integer part, a dot, two fraction digits). -/
def format_hundredths (cents : Nat) : String :=
  dec_str (cents / 100) ++ "." ++ (if cents % 100 < 10 then "0" else "") ++ dec_str (cents % 100)

/-- Value of `amount = n / (float)d` rounded to hundredths, as printed by
`%.2f`: round-half-up of `100 * n / d` in exact integer arithmetic.  The C
code computes this in 32-bit floating point; IEEE rounding is abstracted
here to exact rational rounding, which is immaterial to the structural
properties proved below (unit choice and line layout never depend on the
printed digits). -/
def cents_of (n d : Nat) : Nat := (200 * n + d) / (2 * d)

/-- One line of the usage report, as built by the loop body of
`get_memory_usage_str`: the `"XiB"` unit template is specialised to GiB /
MiB / KiB when the tag's byte count reaches `gib` / `mib` / `kib`, and
truncated to `"B"` otherwise; then
`snprintf(..., "  %s: %.2f%s\n", name, amount, unit)` lays the line out. -/
def usage_line (n : Nat) (name : String) : String :=
  if n ≥ gib then "  " ++ name ++ ": " ++ format_hundredths (cents_of n gib) ++ "GiB" ++ "\n"
  else if n ≥ mib then "  " ++ name ++ ": " ++ format_hundredths (cents_of n mib) ++ "MiB" ++ "\n"
  else if n ≥ kib then "  " ++ name ++ ": " ++ format_hundredths (cents_of n kib) ++ "KiB" ++ "\n"
  else "  " ++ name ++ ": " ++ format_hundredths (cents_of n 1) ++ "B" ++ "\n"

/-- One iteration of the `get_memory_usage_str` loop: `snprintf` writes at
most `msg_length - offset - 1` characters of the tag's line into the
buffer (one byte stays reserved for the terminator), and the returned
length is clamped before advancing `offset`, so `offset` always equals the
characters stored (here, the buffer length). -/
def usage_buffer_step (tagged : memory_tag → Nat) (buffer : String) (t : memory_tag) : String :=
  ⟨buffer.data
    ++ (usage_line (tagged t) (memory_tag_strings t)).data.take
        (msg_length - buffer.length - 1)⟩

/-- Model of `get_memory_usage_str` over a ledger: starts the `char buffer[8000]`
with the header, then appends each tag's line in enum order, truncating as
`snprintf` would (see `usage_buffer_step`). -/
def get_memory_usage_str (tagged : memory_tag → Nat) : String :=
  memory_tag_order.foldl (usage_buffer_step tagged) "System memory use (tagged):\n"

/-- The bare (unpadded) display names behind `memory_tag_strings`. -/
def tag_display_name : memory_tag → String
  | .MEMORY_TAG_UNKOWN => "UNKNOWN"
  | .MEMORY_TAG_ARRAY => "ARRAY"
  | .MEMORY_TAG_DARRAY => "DARRAY"
  | .MEMORY_TAG_DICT => "DICT"
  | .MEMORY_TAG_RING_QUEUE => "RING_QUEUE"
  | .MEMORY_TAG_BST => "BST"
  | .MEMORY_TAG_STRING => "STRING"
  | .MEMORY_TAG_APPLICATION => "APPLICATION"
  | .MEMORY_TAG_JOB => "JOB"
  | .MEMORY_TAG_TEXTURE => "TEXTURE"
  | .MEMORY_TAG_MATERIAL_INSTANCE => "MAT_INST"
  | .MEMORY_TAG_RENDERER => "RENDERER"
  | .MEMORY_TAG_GAME => "GAME"
  | .MEMORY_TAG_TRANSFORM => "TRANSFORM"
  | .MEMORY_TAG_ENTITY => "ENTITY"
  | .MEMORY_TAG_ENTTY_NODE => "ENTITY_NODE"
  | .MEMORY_TAG_SCENE => "SCENE"

/-- Pads `s` on the LEFT with blanks up to width `w`. -/
def left_pad (w : Nat) (s : String) : String :=
  ⟨List.replicate (w - s.length) ' ' ++ s.data⟩

/-- Pads `s` on the RIGHT with blanks up to width `w` (left-justified). -/
def right_pad (w : Nat) (s : String) : String :=
  ⟨s.data ++ List.replicate (w - s.length) ' '⟩

/-- Unit suffix and rounded-hundredths amount selected by the thresholds
the spec names: the largest unit among B / KiB / MiB / GiB whose threshold
(`1`, `1024`, `1024 ^ 2`, `1024 ^ 3`) the byte count reaches. -/
def spec_unit_and_cents (n : Nat) : String × Nat :=
  if n ≥ 1024 ^ 3 then ("GiB", cents_of n (1024 ^ 3))
  else if n ≥ 1024 ^ 2 then ("MiB", cents_of n (1024 ^ 2))
  else if n ≥ 1024 then ("KiB", cents_of n 1024)
  else ("B", cents_of n 1)

/-- A usage-report line following the words of the spec for claim C9: the
tag name LEFT-padded to the fixed width 11, then the converted byte count
to two decimal places, then the unit suffix. -/
def spec_usage_line_left_padded (n : Nat) (name : String) : String :=
  "  " ++ left_pad 11 name ++ ": "
    ++ format_hundredths (spec_unit_and_cents n).2 ++ (spec_unit_and_cents n).1 ++ "\n"

/-- The same spec-side line with the tag name RIGHT-padded
(left-justified) to width 11 — the amended form of claim C9. -/
def spec_usage_line_right_padded (n : Nat) (name : String) : String :=
  "  " ++ right_pad 11 name ++ ": "
    ++ format_hundredths (spec_unit_and_cents n).2 ++ (spec_unit_and_cents n).1 ++ "\n"

/-- Claim C9 as stated: every rendered line equals the spec-side line with
the tag name left-padded to the fixed width. -/
def usage_line_matches_left_padded_spec : Prop :=
  ∀ (t : memory_tag) (n : Nat),
    usage_line n (memory_tag_strings t) = spec_usage_line_left_padded n (tag_display_name t)

/-! ## Theorems -/

/-! ### Run-loop lemmas -/

/-- When `is_running` is already false, the loop body never executes. -/
lemma application_loop_not_running (inputs : List frame_input) (s : app_run_state)
    (h : s.is_running = false) : application_loop inputs s = some ([], s) := by
  cases inputs <;> simp [application_loop, h]

/-- The pump statement never touches `is_suspended`. -/
lemma pump_next_is_suspended (inp : frame_input) (s : app_run_state) :
    (pump_next inp s).is_suspended = s.is_suspended := by
  cases hp : inp.pump <;> simp [pump_next, hp]

/-- After a pump that signalled stop, `is_running` is false. -/
lemma pump_next_stop (inp : frame_input) (s : app_run_state) (h : inp.pump = false) :
    pump_next inp s = ⟨false, s.is_suspended⟩ := by
  simp [pump_next, h]

/-- Unfolding of the loop on a suspended iteration. -/
lemma application_loop_susp (inp : frame_input) (rest : List frame_input) (s : app_run_state)
    (h1 : s.is_running = true) (h2 : s.is_suspended = true) :
    application_loop (inp :: rest) s
      = (application_loop rest (pump_next inp s)).map
          (fun r => (⟨inp.pump, none, none⟩ :: r.1, r.2)) := by
  simp [application_loop, h1, pump_next_is_suspended, h2]

/-- Unfolding of the loop on an iteration whose update callback fails. -/
lemma application_loop_upd_fail (inp : frame_input) (rest : List frame_input)
    (s : app_run_state) (h1 : s.is_running = true) (h2 : s.is_suspended = false)
    (h3 : inp.update = false) :
    application_loop (inp :: rest) s
      = some ([⟨inp.pump, some false, none⟩], ⟨false, s.is_suspended⟩) := by
  simp [application_loop, h1, pump_next_is_suspended, h2, h3]

/-- Unfolding of the loop on an iteration whose render callback fails. -/
lemma application_loop_ren_fail (inp : frame_input) (rest : List frame_input)
    (s : app_run_state) (h1 : s.is_running = true) (h2 : s.is_suspended = false)
    (h3 : inp.update = true) (h4 : inp.render = false) :
    application_loop (inp :: rest) s
      = some ([⟨inp.pump, some true, some false⟩], ⟨false, s.is_suspended⟩) := by
  simp [application_loop, h1, pump_next_is_suspended, h2, h3, h4]

/-- Unfolding of the loop on an iteration whose callbacks both succeed. -/
lemma application_loop_ok (inp : frame_input) (rest : List frame_input)
    (s : app_run_state) (h1 : s.is_running = true) (h2 : s.is_suspended = false)
    (h3 : inp.update = true) (h4 : inp.render = true) :
    application_loop (inp :: rest) s
      = (application_loop rest (pump_next inp s)).map
          (fun r => (⟨inp.pump, some true, some true⟩ :: r.1, r.2)) := by
  simp [application_loop, h1, pump_next_is_suspended, h2, h3, h4]

/-- Per-iteration facts about every completed loop execution: when the
state is not suspended the update callback runs in every iteration; an
iteration whose pump signalled stop is the final one; an iteration whose
update failed has no render call and is the final one; an iteration whose
render failed is the final one. -/
lemma loop_trace_spec (inputs : List frame_input) :
    ∀ (s : app_run_state) (tr : List iter_trace) (s' : app_run_state),
      application_loop inputs s = some (tr, s') →
      ∀ (pre : List iter_trace) (t : iter_trace) (post : List iter_trace),
        tr = pre ++ t :: post →
        (s.is_suspended = false → t.update_result ≠ none) ∧
        (t.pump_ok = false → post = []) ∧
        (t.update_result = some false → t.render_result = none ∧ post = []) ∧
        (t.render_result = some false → post = []) := by
  induction inputs with
  | nil =>
    intro s tr s' h pre t post htr
    by_cases hrun : s.is_running = true
    · simp [application_loop, hrun] at h
    · rw [application_loop_not_running [] s (by simpa using hrun)] at h
      obtain ⟨h1, -⟩ := Prod.mk.injEq .. ▸ Option.some.inj h
      rw [htr] at h1
      exact absurd h1.symm (List.append_ne_nil_of_right_ne_nil _ (List.cons_ne_nil _ _))
  | cons inp rest ih =>
    intro s tr s' h pre t post htr
    by_cases hrun : s.is_running = true
    · by_cases hsus : s.is_suspended = true
      · -- suspended iteration: callbacks skipped
        rw [application_loop_susp inp rest s hrun hsus] at h
        cases hrec : application_loop rest (pump_next inp s) with
        | none => rw [hrec] at h; simp at h
        | some r =>
          rw [hrec] at h
          obtain ⟨h1, -⟩ := Prod.mk.injEq .. ▸ Option.some.inj h
          rw [htr] at h1
          cases pre with
          | nil =>
            simp only [List.nil_append] at h1
            obtain ⟨ht, hpost⟩ := List.cons.inj h1
            refine ⟨fun hc => absurd hc (by simp [hsus]), fun hstop => ?_,
                    fun hc => by simp [← ht] at hc, fun hc => by simp [← ht] at hc⟩
            -- pump signalled stop: the recursive loop runs zero iterations
            rw [← ht] at hstop
            rw [application_loop_not_running rest (pump_next inp s)
                  (by rw [pump_next_stop inp s hstop])] at hrec
            obtain ⟨hr1, -⟩ := Prod.mk.injEq .. ▸ (Option.some.inj hrec).symm
            rw [← hpost, ← hr1]
          | cons p pre' =>
            obtain ⟨-, hrest⟩ := List.cons.inj h1
            have := ih (pump_next inp s) r.1 r.2 (by rw [hrec]) pre' t post hrest
            exact ⟨fun hc => this.1 (by rwa [pump_next_is_suspended]),
                   this.2.1, this.2.2.1, this.2.2.2⟩
      · have hsus' : s.is_suspended = false := by simpa using hsus
        by_cases hupd : inp.update = true
        · by_cases hren : inp.render = true
          · -- both callbacks succeed: the loop continues
            rw [application_loop_ok inp rest s hrun hsus' hupd hren] at h
            cases hrec : application_loop rest (pump_next inp s) with
            | none => rw [hrec] at h; simp at h
            | some r =>
              rw [hrec] at h
              obtain ⟨h1, -⟩ := Prod.mk.injEq .. ▸ Option.some.inj h
              rw [htr] at h1
              cases pre with
              | nil =>
                simp only [List.nil_append] at h1
                obtain ⟨ht, hpost⟩ := List.cons.inj h1
                refine ⟨fun _ => by simp [← ht], fun hstop => ?_,
                        fun hc => by simp [← ht] at hc, fun hc => by simp [← ht] at hc⟩
                rw [← ht] at hstop
                rw [application_loop_not_running rest (pump_next inp s)
                      (by rw [pump_next_stop inp s hstop])] at hrec
                obtain ⟨hr1, -⟩ := Prod.mk.injEq .. ▸ (Option.some.inj hrec).symm
                rw [← hpost, ← hr1]
              | cons p pre' =>
                obtain ⟨-, hrest⟩ := List.cons.inj h1
                have := ih (pump_next inp s) r.1 r.2 (by rw [hrec]) pre' t post hrest
                exact ⟨fun hc => this.1 (by rwa [pump_next_is_suspended]),
                       this.2.1, this.2.2.1, this.2.2.2⟩
          · -- render fails: singleton trace, loop breaks
            rw [application_loop_ren_fail inp rest s hrun hsus' hupd (by simpa using hren)] at h
            obtain ⟨h1, -⟩ := Prod.mk.injEq .. ▸ Option.some.inj h
            rw [htr] at h1
            cases pre with
            | nil =>
              simp only [List.nil_append] at h1
              obtain ⟨ht, hpost⟩ := List.cons.inj h1
              exact ⟨fun _ => by simp [← ht], fun _ => hpost.symm,
                     fun hc => by simp [← ht] at hc, fun _ => hpost.symm⟩
            | cons p pre' =>
              obtain ⟨-, hrest⟩ := List.cons.inj h1
              exact absurd hrest (by simp)
        · -- update fails: singleton trace, loop breaks
          rw [application_loop_upd_fail inp rest s hrun hsus' (by simpa using hupd)] at h
          obtain ⟨h1, -⟩ := Prod.mk.injEq .. ▸ Option.some.inj h
          rw [htr] at h1
          cases pre with
          | nil =>
            simp only [List.nil_append] at h1
            obtain ⟨ht, hpost⟩ := List.cons.inj h1
            exact ⟨fun _ => by simp [← ht], fun _ => hpost.symm,
                   fun _ => ⟨by simp [← ht], hpost.symm⟩, fun hc => by simp [← ht] at hc⟩
          | cons p pre' =>
            obtain ⟨-, hrest⟩ := List.cons.inj h1
            exact absurd hrest (by simp)
    · rw [application_loop_not_running (inp :: rest) s (by simpa using hrun)] at h
      obtain ⟨h1, -⟩ := Prod.mk.injEq .. ▸ Option.some.inj h
      rw [htr] at h1
      exact absurd h1.symm (List.append_ne_nil_of_right_ne_nil _ (List.cons_ne_nil _ _))

/-- A terminating `application_run` decomposes into a terminating loop
followed by the unconditional epilogue. -/
lemma application_run_eq (inputs : List frame_input) (s : app_run_state) (out : run_output)
    (h : application_run inputs s = some out) :
    ∃ tr s', application_loop inputs s = some (tr, s')
      ∧ out = ⟨tr, ⟨false, s'.is_suspended⟩, 1, true⟩ := by
  unfold application_run at h
  cases hrec : application_loop inputs s with
  | none => rw [hrec] at h; exact absurd h (by simp)
  | some r =>
    obtain ⟨tr, s'⟩ := r
    rw [hrec] at h
    exact ⟨tr, s', rfl, (Option.some.inj h).symm⟩

/-- C1.  For every execution of `application_run`, whether the loop exits
because `pump_messages` signalled stop or because the `update` or `render`
callback returned failure, the function sets `is_running` to false and
calls `platform_shutdown` exactly once before returning. -/
theorem C1_run_forces_shutdown (inputs : List frame_input) (s : app_run_state)
    (out : run_output) (h : application_run inputs s = some out) :
    out.final.is_running = false ∧ out.shutdown_calls = 1 := by
  obtain ⟨tr, s', -, hout⟩ := application_run_eq inputs s out h
  rw [hout]
  exact ⟨rfl, rfl⟩

/-- Witness for C1: a run stopped by the pump. -/
theorem C1_run_forces_shutdown_witness :
    (⟨[⟨false, some true, some true⟩], ⟨false, false⟩, 1, true⟩ : run_output).final.is_running = false
    ∧ (⟨[⟨false, some true, some true⟩], ⟨false, false⟩, 1, true⟩ : run_output).shutdown_calls = 1 :=
  C1_run_forces_shutdown [⟨false, true, true⟩] ⟨true, false⟩ _ rfl

/-- C10.  `application_run` returns `TRUE` on every execution path,
including paths on which `update` or `render` failed. -/
theorem C10_run_returns_true (inputs : List frame_input) (s : app_run_state)
    (out : run_output) (h : application_run inputs s = some out) :
    out.ret = true := by
  obtain ⟨tr, s', -, hout⟩ := application_run_eq inputs s out h
  rw [hout]

/-- Witness for C10: a run on which the update callback failed still
returns `TRUE`. -/
theorem C10_run_returns_true_witness :
    (⟨[⟨true, some false, none⟩], ⟨false, false⟩, 1, true⟩ : run_output).ret = true :=
  C10_run_returns_true [⟨true, false, true⟩] ⟨true, false⟩ _ rfl

/-- C4 counterexample.  The claim "an iteration whose pump signalled stop
invokes neither callback" is refuted by the one-iteration run in which the
pump signals stop and both callbacks are nevertheless invoked: the loop
body falls through to the callback block in that same iteration. -/
theorem C4_counterexample : ¬ pump_stop_exits_immediately := by
  intro hcl
  have h := hcl [⟨false, true, true⟩] ⟨true, false⟩
      ⟨[⟨false, some true, some true⟩], ⟨false, false⟩, 1, true⟩ rfl
      ⟨false, some true, some true⟩ (by simp) rfl
  simp at h

/-- C4 amended.  An iteration whose pump signalled stop is the final
iteration of the run (the loop condition fails at the next check), but the
callbacks of that same iteration still run when the state is not
suspended. -/
theorem C4_pump_stop_is_final (inputs : List frame_input) (s : app_run_state)
    (out : run_output) (h : application_run inputs s = some out)
    (pre : List iter_trace) (t : iter_trace) (post : List iter_trace)
    (hsplit : out.trace = pre ++ t :: post) (hstop : t.pump_ok = false) :
    post = [] ∧ (s.is_suspended = false → t.update_result ≠ none) := by
  obtain ⟨tr, s', hloop, hout⟩ := application_run_eq inputs s out h
  have hsp : tr = pre ++ t :: post := by rw [hout] at hsplit; exact hsplit
  have hspec := loop_trace_spec inputs s tr s' hloop pre t post hsp
  exact ⟨hspec.2.1 hstop, hspec.1⟩

/-- Witness for the amended C4. -/
theorem C4_pump_stop_is_final_witness :
    ([] : List iter_trace) = []
    ∧ ((⟨true, false⟩ : app_run_state).is_suspended = false →
        (⟨false, some true, some true⟩ : iter_trace).update_result ≠ none) :=
  C4_pump_stop_is_final [⟨false, true, true⟩] ⟨true, false⟩
    ⟨[⟨false, some true, some true⟩], ⟨false, false⟩, 1, true⟩ rfl
    [] ⟨false, some true, some true⟩ [] rfl rfl

/-- C6.  If the update callback fails on some iteration, render is not
called on that iteration, the loop terminates with no further iterations,
and `platform_shutdown` is still executed before `application_run`
returns. -/
theorem C6_update_failure_stops_loop (inputs : List frame_input) (s : app_run_state)
    (out : run_output) (h : application_run inputs s = some out)
    (pre : List iter_trace) (t : iter_trace) (post : List iter_trace)
    (hsplit : out.trace = pre ++ t :: post) (hfail : t.update_result = some false) :
    t.render_result = none ∧ post = [] ∧ out.shutdown_calls = 1 := by
  obtain ⟨tr, s', hloop, hout⟩ := application_run_eq inputs s out h
  have hsp : tr = pre ++ t :: post := by rw [hout] at hsplit; exact hsplit
  have hspec := loop_trace_spec inputs s tr s' hloop pre t post hsp
  exact ⟨(hspec.2.2.1 hfail).1, (hspec.2.2.1 hfail).2, by rw [hout]⟩

/-- Witness for C6: update fails on the third iteration of a run. -/
theorem C6_update_failure_stops_loop_witness :
    (⟨true, some false, none⟩ : iter_trace).render_result = none
    ∧ ([] : List iter_trace) = []
    ∧ (⟨[⟨true, some true, some true⟩, ⟨true, some true, some true⟩, ⟨true, some false, none⟩],
        ⟨false, false⟩, 1, true⟩ : run_output).shutdown_calls = 1 :=
  C6_update_failure_stops_loop [⟨true, true, true⟩, ⟨true, true, true⟩, ⟨true, false, true⟩]
    ⟨true, false⟩
    ⟨[⟨true, some true, some true⟩, ⟨true, some true, some true⟩, ⟨true, some false, none⟩],
     ⟨false, false⟩, 1, true⟩ rfl
    [⟨true, some true, some true⟩, ⟨true, some true, some true⟩] ⟨true, some false, none⟩ [] rfl rfl

/-- The loop on the C5 scenario: `k` iterations with everything
succeeding, then one iteration whose pump signals stop (whose callbacks
still run, see C4). -/
lemma application_loop_good_path (k : Nat) :
    application_loop (List.replicate k ⟨true, true, true⟩ ++ [⟨false, true, true⟩]) ⟨true, false⟩
      = some (List.replicate k ⟨true, some true, some true⟩ ++ [⟨false, some true, some true⟩],
              ⟨false, false⟩) := by
  induction k with
  | zero => rfl
  | succ n ihn =>
    simp only [List.replicate_succ, List.cons_append]
    rw [application_loop_ok ⟨true, true, true⟩ _ ⟨true, false⟩ rfl rfl rfl rfl]
    have hpn : pump_next ⟨true, true, true⟩ (⟨true, false⟩ : app_run_state) = ⟨true, false⟩ := rfl
    rw [hpn, ihn]
    rfl

/-- Filtering a replicated list with a predicate true on the element keeps
the whole list. -/
lemma filter_replicate_of_pos {α : Type} (p : α → Bool) (a : α) (h : p a = true) (n : Nat) :
    (List.replicate n a).filter p = List.replicate n a := by
  induction n with
  | zero => rfl
  | succ m ihm => simp [List.replicate_succ, List.filter_cons, h, ihm]

/-- C5.  For every `N ≥ 1`, if all callbacks succeed, the application is
never suspended, and the pump returns true on the first `N - 1` calls and
signals stop on the `N`-th, then `application_run` performs exactly `N`
pump calls and exactly `N` update/render pairs, shuts the platform down,
and returns success. -/
theorem C5_shutdown_scenario (N : Nat) (hN : 1 ≤ N) :
    ∃ out,
      application_run (List.replicate (N - 1) ⟨true, true, true⟩ ++ [⟨false, true, true⟩])
          ⟨true, false⟩ = some out
      ∧ out.trace.length = N
      ∧ count_update_calls out.trace = N
      ∧ count_render_calls out.trace = N
      ∧ out.shutdown_calls = 1
      ∧ out.ret = true := by
  refine ⟨⟨List.replicate (N - 1) ⟨true, some true, some true⟩ ++ [⟨false, some true, some true⟩],
           ⟨false, false⟩, 1, true⟩, ?_, ?_, ?_, ?_, rfl, rfl⟩
  · unfold application_run
    rw [application_loop_good_path (N - 1)]
  · simp only [List.length_append, List.length_replicate, List.length_cons, List.length_nil]
    omega
  · unfold count_update_calls
    rw [List.filter_append, filter_replicate_of_pos _ _ rfl]
    simp only [List.length_append, List.length_replicate]
    have : (([⟨false, some true, some true⟩] : List iter_trace).filter
        (fun t => t.update_result.isSome)).length = 1 := rfl
    omega
  · unfold count_render_calls
    rw [List.filter_append, filter_replicate_of_pos _ _ rfl]
    simp only [List.length_append, List.length_replicate]
    have : (([⟨false, some true, some true⟩] : List iter_trace).filter
        (fun t => t.render_result.isSome)).length = 1 := rfl
    omega

/-- Witness for C5 at `N = 3`. -/
theorem C5_shutdown_scenario_witness :
    ∃ out,
      application_run (List.replicate (3 - 1) ⟨true, true, true⟩ ++ [⟨false, true, true⟩])
          ⟨true, false⟩ = some out
      ∧ out.trace.length = 3
      ∧ count_update_calls out.trace = 3
      ∧ count_render_calls out.trace = 3
      ∧ out.shutdown_calls = 1
      ∧ out.ret = true :=
  C5_shutdown_scenario 3 (by decide)

/-- A successful `application_create` leaves the initialization guard
set. -/
lemma application_create_success_sets_guard (g : Nat) (env : create_env)
    (init0 : Bool) (app0 : application_state)
    (h : (application_create g env init0 app0).1 = true) :
    (application_create g env init0 app0).2.1 = true := by
  obtain ⟨pok, pst, gok⟩ := env
  cases init0 <;> cases pok <;> cases gok <;>
    simp_all [application_create]

/-- C7.  A call to `application_create` made after a prior successful call
returns failure and leaves the entire state (guard and
`application_state`) unchanged. -/
theorem C7_second_create_rejected (g1 g2 : Nat) (env1 env2 : create_env)
    (init0 : Bool) (app0 : application_state)
    (hsuccess : (application_create g1 env1 init0 app0).1 = true) :
    application_create g2 env2 (application_create g1 env1 init0 app0).2.1
        (application_create g1 env1 init0 app0).2.2
      = (false, (application_create g1 env1 init0 app0).2.1,
         (application_create g1 env1 init0 app0).2.2) := by
  have hg := application_create_success_sets_guard g1 env1 init0 app0 hsuccess
  rw [hg]
  simp [application_create]

/-- Witness for C7: a concrete successful first call followed by a second
call. -/
theorem C7_second_create_rejected_witness :
    application_create 2 ⟨true, 9, true⟩ (application_create 1 ⟨true, 7, true⟩ false ⟨0, false, false, 0, 0, 0⟩).2.1
        (application_create 1 ⟨true, 7, true⟩ false ⟨0, false, false, 0, 0, 0⟩).2.2
      = (false, (application_create 1 ⟨true, 7, true⟩ false ⟨0, false, false, 0, 0, 0⟩).2.1,
         (application_create 1 ⟨true, 7, true⟩ false ⟨0, false, false, 0, 0, 0⟩).2.2) :=
  C7_second_create_rejected 1 2 ⟨true, 7, true⟩ ⟨true, 9, true⟩ false ⟨0, false, false, 0, 0, 0⟩ rfl

/-- The `quit_flagged` accumulator of the X11 pump is the disjunction of
the delete-window tests of the drained events. -/
lemma linux_pump_foldl (wm : Nat) (events : List xcb_generic_event) : ∀ q : Bool,
    events.foldl
      (fun quit_flagged e =>
        if e.response_type &&& 127 = XCB_CLIENT_MESSAGE then
          if e.data32_0 = wm then true else quit_flagged
        else quit_flagged) q
    = (q || events.any (fun e =>
        decide (e.response_type &&& 127 = XCB_CLIENT_MESSAGE) && decide (e.data32_0 = wm))) := by
  induction events with
  | nil => intro q; simp
  | cons e es ihe =>
    intro q
    simp only [List.foldl_cons, List.any_cons]
    rw [ihe]
    by_cases h1 : e.response_type &&& 127 = XCB_CLIENT_MESSAGE
    · by_cases h2 : e.data32_0 = wm <;> simp [h1, h2]
    · simp [h1]

/-- C2 counterexample.  On the Win32 backend a `WM_DESTROY` message does
not make `platform_pump_messages` return false: the function returns
`TRUE` unconditionally (`platform_win32.c` line 189), so the claim fails
on the queue `[WM_DESTROY]`. -/
theorem C2_close_claim_counterexample : ¬ pump_close_claim := by
  intro h
  have h2 := (h.1 [WM_DESTROY]).mpr (List.mem_singleton.mpr rfl)
  exact absurd h2 (by decide)

/-- C2 amended.  The Win32 pump always returns `TRUE` (a `WM_DESTROY`
posts a quit message that the function never consults); the X11 pump
returns false exactly when a client message whose first data word equals
the cached delete-window atom was drained. -/
theorem C2_pump_messages_per_backend :
    (∀ msgs : List Nat, (platform_pump_messages_win32 msgs).2 = true)
    ∧ (∀ (wm : Nat) (events : List xcb_generic_event),
        platform_pump_messages_linux wm events = false
          ↔ ∃ e ∈ events, e.response_type &&& 127 = XCB_CLIENT_MESSAGE ∧ e.data32_0 = wm) := by
  refine ⟨fun msgs => rfl, fun wm events => ?_⟩
  unfold platform_pump_messages_linux
  rw [linux_pump_foldl]
  simp [List.any_eq_true]

/-! ### Memory-ledger lemmas (C3) -/

lemma U64_MOD_pos : 0 < U64_MOD := by
  unfold U64_MOD
  positivity

lemma add64_cast (a b : Nat) :
    ((add64 a b : Nat) : ZMod U64_MOD) = (a : ZMod U64_MOD) + b := by
  rw [add64, ZMod.natCast_mod, Nat.cast_add]

lemma sub64_cast (a b : Nat) :
    ((sub64 a b : Nat) : ZMod U64_MOD) = (a : ZMod U64_MOD) - b := by
  have hb : b % U64_MOD ≤ U64_MOD := le_of_lt (Nat.mod_lt _ U64_MOD_pos)
  rw [sub64, ZMod.natCast_mod, Nat.cast_add, Nat.cast_sub hb, ZMod.natCast_self,
    ZMod.natCast_mod]
  ring

/-- Nat values below the modulus are determined by their u64 residue. -/
lemma cast_inj_lt (a b : Nat) (ha : a < U64_MOD) (hb : b < U64_MOD)
    (h : (a : ZMod U64_MOD) = b) : a = b := by
  have hv := congrArg ZMod.val h
  rwa [ZMod.val_cast_of_lt ha, ZMod.val_cast_of_lt hb] at hv

lemma apply_mem_op_total_cast (s : memory_stats) (op : mem_op) :
    ((apply_mem_op s op).total_allocated : ZMod U64_MOD)
      = (s.total_allocated : ZMod U64_MOD) + op_delta op := by
  cases op with
  | alloc size tag => simp [apply_mem_op, kallocate, op_delta, add64_cast]
  | free size tag => simp [apply_mem_op, kfree, op_delta, sub64_cast, sub_eq_add_neg]

lemma apply_mem_op_tagged_cast (s : memory_stats) (op : mem_op) (t : memory_tag) :
    ((apply_mem_op s op).tagged_allocations t : ZMod U64_MOD)
      = (s.tagged_allocations t : ZMod U64_MOD) + op_delta_tag t op := by
  cases op with
  | alloc size tag =>
    by_cases ht : t = tag
    · subst ht
      simp [apply_mem_op, kallocate, op_delta_tag, add64_cast]
    · simp [apply_mem_op, kallocate, op_delta_tag, ht, Ne.symm ht]
  | free size tag =>
    by_cases ht : t = tag
    · subst ht
      simp [apply_mem_op, kfree, op_delta_tag, sub64_cast, sub_eq_add_neg]
    · simp [apply_mem_op, kfree, op_delta_tag, ht, Ne.symm ht]

lemma apply_mem_ops_total_cast (ops : List mem_op) : ∀ s : memory_stats,
    ((apply_mem_ops ops s).total_allocated : ZMod U64_MOD)
      = (s.total_allocated : ZMod U64_MOD) + (ops.map op_delta).sum := by
  induction ops with
  | nil => intro s; simp [apply_mem_ops]
  | cons op rest ihr =>
    intro s
    simp only [apply_mem_ops, List.foldl_cons, List.map_cons, List.sum_cons] at *
    rw [ihr, apply_mem_op_total_cast]
    ring

lemma apply_mem_ops_tagged_cast (t : memory_tag) (ops : List mem_op) : ∀ s : memory_stats,
    ((apply_mem_ops ops s).tagged_allocations t : ZMod U64_MOD)
      = (s.tagged_allocations t : ZMod U64_MOD) + (ops.map (op_delta_tag t)).sum := by
  induction ops with
  | nil => intro s; simp [apply_mem_ops]
  | cons op rest ihr =>
    intro s
    simp only [apply_mem_ops, List.foldl_cons, List.map_cons, List.sum_cons] at *
    rw [ihr, apply_mem_op_tagged_cast]
    ring

/-- The net u64 effect on the total is (sum of allocated sizes) minus
(sum of freed sizes). -/
lemma map_op_delta_sum (ops : List mem_op) :
    (ops.map op_delta).sum
      = pair_size_sum (alloc_pairs ops) - pair_size_sum (free_pairs ops) := by
  induction ops with
  | nil => simp [alloc_pairs, free_pairs, pair_size_sum]
  | cons op rest ihr =>
    cases op with
    | alloc size tag =>
      simp only [List.map_cons, List.sum_cons, alloc_pairs, free_pairs, op_delta]
      rw [ihr]
      simp only [pair_size_sum, List.map_cons, List.sum_cons]
      ring
    | free size tag =>
      simp only [List.map_cons, List.sum_cons, alloc_pairs, free_pairs, op_delta]
      rw [ihr]
      simp only [pair_size_sum, List.map_cons, List.sum_cons]
      ring

/-- The net u64 effect on one tag's counter is (sum of that tag's
allocated sizes) minus (sum of that tag's freed sizes). -/
lemma filter_skip_of_ne (tag t : memory_tag) (size : Nat) (l : List (Nat × memory_tag))
    (ht : ¬t = tag) :
    List.filter (fun p => p.2 == tag) ((size, t) :: l) = List.filter (fun p => p.2 == tag) l := by
  simp [List.filter_cons, ht]

lemma map_op_delta_tag_sum (tag : memory_tag) (ops : List mem_op) :
    (ops.map (op_delta_tag tag)).sum
      = pair_size_sum (pairs_for_tag tag (alloc_pairs ops))
        - pair_size_sum (pairs_for_tag tag (free_pairs ops)) := by
  induction ops with
  | nil => simp [alloc_pairs, free_pairs, pairs_for_tag, pair_size_sum]
  | cons op rest ihr =>
    cases op with
    | alloc size t =>
      simp only [List.map_cons, List.sum_cons, alloc_pairs, free_pairs, op_delta_tag]
      rw [ihr]
      by_cases ht : t = tag
      · simp only [ht, if_true, pairs_for_tag, List.filter_cons, beq_self_eq_true, if_pos,
          pair_size_sum, List.map_cons, List.sum_cons]
        ring
      · rw [if_neg ht]
        unfold pairs_for_tag
        rw [filter_skip_of_ne tag t size (alloc_pairs rest) ht]
        ring
    | free size t =>
      simp only [List.map_cons, List.sum_cons, alloc_pairs, free_pairs, op_delta_tag]
      rw [ihr]
      by_cases ht : t = tag
      · simp only [ht, if_true, pairs_for_tag, List.filter_cons, beq_self_eq_true, if_pos,
          pair_size_sum, List.map_cons, List.sum_cons]
        ring
      · rw [if_neg ht]
        unfold pairs_for_tag
        rw [filter_skip_of_ne tag t size (free_pairs rest) ht]
        ring
lemma apply_mem_op_total_lt (s : memory_stats) (op : mem_op) :
    (apply_mem_op s op).total_allocated < U64_MOD := by
  cases op with
  | alloc size tag => exact Nat.mod_lt _ U64_MOD_pos
  | free size tag => exact Nat.mod_lt _ U64_MOD_pos

lemma apply_mem_ops_total_lt (ops : List mem_op) : ∀ s : memory_stats,
    s.total_allocated < U64_MOD → (apply_mem_ops ops s).total_allocated < U64_MOD := by
  induction ops with
  | nil => intro s hs; exact hs
  | cons op rest ihr =>
    intro s _
    exact ihr (apply_mem_op s op) (apply_mem_op_total_lt s op)

lemma apply_mem_op_tagged_lt (s : memory_stats) (op : mem_op) (t : memory_tag)
    (h : s.tagged_allocations t < U64_MOD) :
    (apply_mem_op s op).tagged_allocations t < U64_MOD := by
  cases op with
  | alloc size tag =>
    by_cases ht : t = tag <;>
      simp only [apply_mem_op, kallocate, ht, if_true, if_false]
    · exact Nat.mod_lt _ U64_MOD_pos
    · simpa [ht] using h
  | free size tag =>
    by_cases ht : t = tag <;>
      simp only [apply_mem_op, kfree, ht, if_true, if_false]
    · exact Nat.mod_lt _ U64_MOD_pos
    · simpa [ht] using h

lemma apply_mem_ops_tagged_lt (ops : List mem_op) : ∀ (s : memory_stats) (t : memory_tag),
    s.tagged_allocations t < U64_MOD →
    (apply_mem_ops ops s).tagged_allocations t < U64_MOD := by
  induction ops with
  | nil => intro s t hs; exact hs
  | cons op rest ihr =>
    intro s t hs
    exact ihr (apply_mem_op s op) t (apply_mem_op_tagged_lt s op t hs)
/-- Summing one call's per-tag deltas over all tags gives its total
delta. -/
lemma sum_op_delta_tag (op : mem_op) : ∑ t, op_delta_tag t op = op_delta op := by
  cases op with
  | alloc size tag => simp [op_delta, op_delta_tag, Finset.sum_ite_eq]
  | free size tag => simp [op_delta, op_delta_tag, Finset.sum_ite_eq]

/-- One ledger call preserves the residue-ring invariant. -/
lemma apply_mem_op_inv (s : memory_stats) (op : mem_op)
    (hinv : (s.total_allocated : ZMod U64_MOD)
      = ∑ t, (s.tagged_allocations t : ZMod U64_MOD)) :
    ((apply_mem_op s op).total_allocated : ZMod U64_MOD)
      = ∑ t, ((apply_mem_op s op).tagged_allocations t : ZMod U64_MOD) := by
  have hsum : ∑ t, ((apply_mem_op s op).tagged_allocations t : ZMod U64_MOD)
      = ∑ t, ((s.tagged_allocations t : ZMod U64_MOD) + op_delta_tag t op) :=
    Finset.sum_congr rfl (fun t _ => apply_mem_op_tagged_cast s op t)
  rw [apply_mem_op_total_cast, hinv, hsum, Finset.sum_add_distrib, sum_op_delta_tag]

/-- The residue-ring invariant holds after any sequence of ledger
calls. -/
lemma apply_mem_ops_inv (ops : List mem_op) : ∀ s : memory_stats,
    ((s.total_allocated : ZMod U64_MOD) = ∑ t, (s.tagged_allocations t : ZMod U64_MOD)) →
    ((apply_mem_ops ops s).total_allocated : ZMod U64_MOD)
      = ∑ t, ((apply_mem_ops ops s).tagged_allocations t : ZMod U64_MOD) := by
  induction ops with
  | nil => intro s hs; exact hs
  | cons op rest ihr =>
    intro s hs
    exact ihr (apply_mem_op s op) (apply_mem_op_inv s op hs)

/-- C3.  For every finite sequence of `kallocate` / `kfree` calls in which
the freed `(size, tag)` pairs are a permutation of the allocated ones,
`total_allocated` returns to its pre-sequence value and every tag counter
returns to its pre-sequence value (zero on a fresh ledger); moreover after
every prefix of the sequence `total_allocated` equals the u64 sum of the
tag counters. -/
theorem C3_ledger_balance (ops : List mem_op) (s : memory_stats)
    (hperm : (alloc_pairs ops).Perm (free_pairs ops))
    (htot : s.total_allocated < U64_MOD)
    (htag : ∀ t, s.tagged_allocations t < U64_MOD)
    (hinv : s.total_allocated = (∑ t, s.tagged_allocations t) % U64_MOD) :
    (apply_mem_ops ops s).total_allocated = s.total_allocated
    ∧ (∀ t, (apply_mem_ops ops s).tagged_allocations t = s.tagged_allocations t)
    ∧ (∀ p q : List mem_op, ops = p ++ q →
        (apply_mem_ops p s).total_allocated
          = (∑ t, (apply_mem_ops p s).tagged_allocations t) % U64_MOD) := by
  have hsums : pair_size_sum (alloc_pairs ops) = pair_size_sum (free_pairs ops) :=
    List.Perm.sum_eq (List.Perm.map (fun p => ((p.1 : Nat) : ZMod U64_MOD)) hperm)
  refine ⟨?_, ?_, ?_⟩
  · refine cast_inj_lt _ _ (apply_mem_ops_total_lt ops s htot) htot ?_
    rw [apply_mem_ops_total_cast, map_op_delta_sum, hsums]
    ring
  · intro t
    have hpermt := List.Perm.filter (fun p => p.2 == t) hperm
    have hsumt : pair_size_sum (pairs_for_tag t (alloc_pairs ops))
        = pair_size_sum (pairs_for_tag t (free_pairs ops)) :=
      List.Perm.sum_eq (List.Perm.map (fun p => ((p.1 : Nat) : ZMod U64_MOD)) hpermt)
    refine cast_inj_lt _ _ (apply_mem_ops_tagged_lt ops s t (htag t)) (htag t) ?_
    rw [apply_mem_ops_tagged_cast, map_op_delta_tag_sum, hsumt]
    ring
  · intro p q hpq
    have hinvZ : (s.total_allocated : ZMod U64_MOD)
        = ∑ t, (s.tagged_allocations t : ZMod U64_MOD) := by
      rw [hinv, ZMod.natCast_mod, Nat.cast_sum]
    have hZ := apply_mem_ops_inv p s hinvZ
    refine cast_inj_lt _ _ (apply_mem_ops_total_lt p s htot) (Nat.mod_lt _ U64_MOD_pos) ?_
    rw [hZ, ZMod.natCast_mod, Nat.cast_sum]

/-- Witness for C3: two allocations and their matching frees on a fresh
ledger. -/
theorem C3_ledger_balance_witness :
    (apply_mem_ops
        [.alloc 100 .MEMORY_TAG_ARRAY, .alloc 50 .MEMORY_TAG_STRING,
         .free 100 .MEMORY_TAG_ARRAY, .free 50 .MEMORY_TAG_STRING]
        initialize_memory).total_allocated = initialize_memory.total_allocated
    ∧ (∀ t, (apply_mem_ops
        [.alloc 100 .MEMORY_TAG_ARRAY, .alloc 50 .MEMORY_TAG_STRING,
         .free 100 .MEMORY_TAG_ARRAY, .free 50 .MEMORY_TAG_STRING]
        initialize_memory).tagged_allocations t = initialize_memory.tagged_allocations t)
    ∧ (∀ p q : List mem_op,
        [.alloc 100 .MEMORY_TAG_ARRAY, .alloc 50 .MEMORY_TAG_STRING,
         .free 100 .MEMORY_TAG_ARRAY, .free 50 .MEMORY_TAG_STRING] = p ++ q →
        (apply_mem_ops p initialize_memory).total_allocated
          = (∑ t, (apply_mem_ops p initialize_memory).tagged_allocations t) % U64_MOD) :=
  C3_ledger_balance
    [.alloc 100 .MEMORY_TAG_ARRAY, .alloc 50 .MEMORY_TAG_STRING,
     .free 100 .MEMORY_TAG_ARRAY, .free 50 .MEMORY_TAG_STRING]
    initialize_memory (by decide) (by decide) (by decide) (by decide)

/-! ### Usage-report lemmas (C8, C9) -/

lemma string_length_data (s : String) : s.length = s.data.length := rfl

/-- Digit-count bound for the decimal rendering. -/
lemma dec_digits_core_length : ∀ (fuel n k : Nat), 1 ≤ k → n < 10 ^ k →
    (dec_digits_core fuel n).length ≤ k := by
  intro fuel
  induction fuel with
  | zero => intro n k hk _; simp [dec_digits_core]
  | succ fuel' ihf =>
    intro n k hk hn
    by_cases hsmall : n < 10
    · simp [dec_digits_core, hsmall, hk]
    · have hten : 10 ≤ n := by omega
      have hk2 : 2 ≤ k := by
        by_contra hcon
        have : k = 1 := by omega
        subst this
        simp at hn
        omega
      have hdiv : n / 10 < 10 ^ (k - 1) := by
        have hpow : 10 ^ k = 10 * 10 ^ (k - 1) := by
          rw [← pow_succ']
          congr 1
          omega
        rw [Nat.div_lt_iff_lt_mul (by norm_num)]
        rw [hpow] at hn
        omega
      have hrec := ihf (n / 10) (k - 1) (by omega) hdiv
      simp only [dec_digits_core, hsmall, if_false]
      rw [List.length_append]
      simp only [List.length_cons, List.length_nil]
      omega

lemma dec_str_length (n k : Nat) (hk : 1 ≤ k) (hn : n < 10 ^ k) :
    (dec_str n).length ≤ k := by
  rw [dec_str, string_length_data]
  exact dec_digits_core_length (n + 1) n k hk hn

/-- String append concatenates the character data. -/
lemma string_data_append (a b : String) : (a ++ b).data = a.data ++ b.data := by
  cases a; cases b; rfl

lemma string_length_append (a b : String) : (a ++ b).length = a.length + b.length := by
  rw [string_length_data, string_data_append, List.length_append,
    string_length_data, string_length_data]

/-- Length bound for the two-decimal rendering. -/
lemma format_hundredths_length (c : Nat) (h : c / 100 < 10 ^ 11) :
    (format_hundredths c).length <= 14 := by
  unfold format_hundredths
  have h1 : (dec_str (c / 100)).length <= 11 := dec_str_length _ 11 (by norm_num) h
  have hdot : ("." : String).length = 1 := rfl
  by_cases hc : c % 100 < 10
  · have h2 : (dec_str (c % 100)).length <= 1 :=
      dec_str_length _ 1 (by norm_num) (by simpa using hc)
    have hzero : ("0" : String).length = 1 := rfl
    simp only [hc, if_true, string_length_append]
    omega
  · have h2 : (dec_str (c % 100)).length <= 2 :=
      dec_str_length _ 2 (by norm_num)
        (by have := Nat.mod_lt c (show 0 < 100 by norm_num); omega)
    have hemp : ("" : String).length = 0 := rfl
    simp only [hc, if_false, string_length_append]
    omega

/-- Rounding bound: if `n < B * d`, the rounded hundredths of `n / d` stay
below `100 * B + 1`. -/
lemma cents_of_lt (n d B : Nat) (hd : 0 < d) (h : n < B * d) :
    cents_of n d < 100 * B + 1 := by
  unfold cents_of
  rw [Nat.div_lt_iff_lt_mul (by omega)]
  have hexp : (100 * B + 1) * (2 * d) = 200 * (B * d) + 2 * d := by ring
  rw [hexp]
  omega

/-- Integer-part digit bound used by every unit branch. -/
lemma cents_div_lt (n d B : Nat) (hd : 0 < d) (h : n < B * d) (hB : B + 1 ≤ 10 ^ 11) :
    cents_of n d / 100 < 10 ^ 11 := by
  have hc := cents_of_lt n d B hd h
  rw [Nat.div_lt_iff_lt_mul (show 0 < 100 by norm_num)]
  calc cents_of n d < 100 * B + 1 := hc
    _ ≤ 100 * (10 ^ 11 - 1) + 1 := by omega
    _ < 10 ^ 11 * 100 := by norm_num

/-- Every usage-report line is at most 33 characters. -/
lemma usage_line_length (n : Nat) (name : String) (hn : n < 2 ^ 64)
    (hname : name.length = 11) : (usage_line n name).length ≤ 33 := by
  have hsp : ("  " : String).length = 2 := rfl
  have hco : (": " : String).length = 2 := rfl
  have hnl : ("\n" : String).length = 1 := rfl
  unfold usage_line
  by_cases h1 : n ≥ gib
  · have hfmt : (format_hundredths (cents_of n gib)).length ≤ 14 := by
      refine format_hundredths_length _ (cents_div_lt n gib (2 ^ 34) (by norm_num [gib]) ?_ (by norm_num))
      calc n < 2 ^ 64 := hn
        _ = 2 ^ 34 * gib := by norm_num [gib]
    have hu : ("GiB" : String).length = 3 := rfl
    simp only [h1, if_true, string_length_append]
    omega
  · by_cases h2 : n ≥ mib
    · have hfmt : (format_hundredths (cents_of n mib)).length ≤ 14 := by
        refine format_hundredths_length _ (cents_div_lt n mib 1024 (by norm_num [mib]) ?_ (by norm_num))
        calc n < gib := by omega
          _ = 1024 * mib := by norm_num [gib, mib]
      have hu : ("MiB" : String).length = 3 := rfl
      simp only [h1, h2, if_true, if_false, string_length_append]
      omega
    · by_cases h3 : n ≥ kib
      · have hfmt : (format_hundredths (cents_of n kib)).length ≤ 14 := by
          refine format_hundredths_length _ (cents_div_lt n kib 1024 (by norm_num [kib]) ?_ (by norm_num))
          calc n < mib := by omega
            _ = 1024 * kib := by norm_num [mib, kib]
        have hu : ("KiB" : String).length = 3 := rfl
        simp only [h1, h2, h3, if_true, if_false, string_length_append]
        omega
      · have hfmt : (format_hundredths (cents_of n 1)).length ≤ 14 := by
          refine format_hundredths_length _ (cents_div_lt n 1 1024 (by norm_num) ?_ (by norm_num))
          have hk : kib = 1024 := rfl
          omega
        have hu : ("B" : String).length = 1 := rfl
        simp only [h1, h2, h3, if_false, string_length_append]
        omega

/-- As long as every pending line fits, the truncating buffer loop of
`get_memory_usage_str` behaves as plain concatenation, and the buffer
length grows by at most 33 per line. -/
lemma usage_fold_no_trunc (tagged : memory_tag → Nat) :
    ∀ (ts : List memory_tag) (buffer : String),
      (∀ t ∈ ts, (usage_line (tagged t) (memory_tag_strings t)).length ≤ 33) →
      buffer.length + 33 * ts.length + 1 ≤ msg_length →
      (ts.foldl (usage_buffer_step tagged) buffer).data
        = buffer.data
          ++ (ts.map (fun t => (usage_line (tagged t) (memory_tag_strings t)).data)).flatten
      ∧ (ts.foldl (usage_buffer_step tagged) buffer).length
          ≤ buffer.length + 33 * ts.length := by
  intro ts
  induction ts with
  | nil =>
    intro buffer _ _
    simp
  | cons t ts iht =>
    intro buffer hlines hroom
    have hline : (usage_line (tagged t) (memory_tag_strings t)).length ≤ 33 :=
      hlines t (by simp)
    have htake : (usage_line (tagged t) (memory_tag_strings t)).data.take
        (msg_length - buffer.length - 1)
        = (usage_line (tagged t) (memory_tag_strings t)).data := by
      refine List.take_of_length_le ?_
      rw [← string_length_data]
      simp only [List.length_cons] at hroom
      omega
    have hstep : usage_buffer_step tagged buffer t
        = ⟨buffer.data ++ (usage_line (tagged t) (memory_tag_strings t)).data⟩ := by
      rw [usage_buffer_step, htake]
    have hsteplen : (usage_buffer_step tagged buffer t).length
        = buffer.length + (usage_line (tagged t) (memory_tag_strings t)).length := by
      rw [hstep, string_length_data, string_length_data, string_length_data]
      exact List.length_append _ _
    have hroom' : (usage_buffer_step tagged buffer t).length + 33 * ts.length + 1
        ≤ msg_length := by
      simp only [List.length_cons] at hroom
      omega
    have ih := iht (usage_buffer_step tagged buffer t)
      (fun u hu => hlines u (by simp [hu])) hroom'
    refine ⟨?_, ?_⟩
    · rw [List.foldl_cons, ih.1, hstep]
      simp [List.append_assoc]
    · rw [List.foldl_cons]
      calc (ts.foldl (usage_buffer_step tagged) (usage_buffer_step tagged buffer t)).length
          ≤ (usage_buffer_step tagged buffer t).length + 33 * ts.length := ih.2
        _ ≤ buffer.length + 33 * (t :: ts).length := by
            simp only [List.length_cons]
            omega

/-- All display names have width 11. -/
lemma memory_tag_strings_length (t : memory_tag) : (memory_tag_strings t).length = 11 := by
  revert t
  decide

/-- C8.  The usage report consists of the header followed by the per-tag
lines in the fixed enum order (no `snprintf` truncation ever fires), and
its total length never exceeds the `msg_length` buffer bound. -/
theorem C8_usage_report_order_and_bound (tagged : memory_tag → Nat)
    (h : ∀ t, tagged t < 2 ^ 64) :
    (get_memory_usage_str tagged).data
      = "System memory use (tagged):\n".data
        ++ (memory_tag_order.map
              (fun t => (usage_line (tagged t) (memory_tag_strings t)).data)).flatten
    ∧ (get_memory_usage_str tagged).length ≤ msg_length := by
  have hlines : ∀ t ∈ memory_tag_order,
      (usage_line (tagged t) (memory_tag_strings t)).length ≤ 33 :=
    fun t _ => usage_line_length (tagged t) _ (h t) (memory_tag_strings_length t)
  have hheader : ("System memory use (tagged):\n" : String).length = 28 := rfl
  have hlen : (memory_tag_order : List memory_tag).length = 17 := rfl
  have hroom : ("System memory use (tagged):\n" : String).length
      + 33 * (memory_tag_order : List memory_tag).length + 1 ≤ msg_length := by
    rw [hheader, hlen]
    norm_num [msg_length]
  have hfold := usage_fold_no_trunc tagged memory_tag_order
    "System memory use (tagged):\n" hlines hroom
  refine ⟨hfold.1, ?_⟩
  calc (get_memory_usage_str tagged).length
      ≤ ("System memory use (tagged):\n" : String).length
        + 33 * (memory_tag_order : List memory_tag).length := hfold.2
    _ ≤ msg_length := by rw [hheader, hlen]; norm_num [msg_length]

/-- Witness for C8: the zero ledger. -/
theorem C8_usage_report_witness :
    (get_memory_usage_str (fun _ => 0)).data
      = "System memory use (tagged):\n".data
        ++ (memory_tag_order.map
              (fun t => (usage_line ((fun _ => 0) t) (memory_tag_strings t)).data)).flatten
    ∧ (get_memory_usage_str (fun _ => 0)).length ≤ msg_length :=
  C8_usage_report_order_and_bound (fun _ => 0) (by decide)

/-- C9 counterexample.  The table entries are left-justified (padded on
the RIGHT) to width 11, so the claim's left-padded layout already fails on
the UNKNOWN line of an empty ledger: the code renders
`"  UNKNOWN    : 0.00B\n"`, not `"      UNKNOWN: 0.00B\n"`. -/
theorem C9_left_padding_counterexample : ¬ usage_line_matches_left_padded_spec := by
  intro h
  exact absurd (h .MEMORY_TAG_UNKOWN 0) (by decide)

/-- C9 amended.  Every rendered line is the two leading spaces, the tag
name RIGHT-padded (left-justified) to width 11, a colon and space, the
byte count converted to the largest fitting unit among B / KiB / MiB / GiB
by the thresholds `1024, 1024 ^ 2, 1024 ^ 3` and rendered to two decimal
places, and the unit suffix. -/
theorem C9_line_layout (t : memory_tag) (n : Nat) :
    usage_line n (memory_tag_strings t)
      = spec_usage_line_right_padded n (tag_display_name t) := by
  have hname : memory_tag_strings t = right_pad 11 (tag_display_name t) := by
    revert t
    decide
  rw [hname]
  unfold usage_line spec_usage_line_right_padded spec_unit_and_cents
  norm_num [gib, mib, kib]
  by_cases h1 : (1073741824 : Nat) ≤ n
  · simp [h1]
  · by_cases h2 : (1048576 : Nat) ≤ n
    · simp [h1, h2]
    · by_cases h3 : (1024 : Nat) ≤ n
      · simp [h1, h2, h3]
      · simp [h1, h2, h3]
